import Mathlib

/-!
Verification development for the vs_opc PLC gateway (Python sources under
src/vs_opc).  We shallowly embed the parts of the code that the claims
touch: the arbitrary-precision decimal values used by the tag store
(`decimal.Decimal`), the dynamic Python values stored as tag values and
metadata, `TagStore.add_tag` / `TagStore.get_value` (src/vs_opc/tag_store.py),
the REST handlers `add_tag`, `import_tags`, `get_tag` and `_json_response`
(src/vs_opc/api.py), and the reconnect/backoff and health bookkeeping of
src/vs_opc/plc_gateway_server.py (`compute_backoff_delay`,
`try_reconnect_helper`, the health effects of `read_compactlogix_tags` /
`read_slc500_tags`, and `get_hmi_health`).

Modelling conventions:
  * A Python `Decimal` is a pair of integers `coeff * 10 ^ exp` (sign folded
    into the coefficient).  The default Python context rounds results to 28
    significant digits; the code relies on exact decimal arithmetic (the
    spec calls it arbitrary precision), and no claim exercises more than 28
    digits, so arithmetic is modelled exactly.  The special values
    NaN/Infinity are outside the modelled fragment.
  * A Python `float` is represented by the decimal numeral of its `repr`
    (the shortest round-tripping decimal form), since the code only
    observes floats through `str()`, `float()` and value comparisons.
  * Python `None`, `bool`, `int`, `float`, `Decimal` and `str` are the
    dynamic values `PyVal`; dictionaries are association lists with
    insert-or-replace update, keyed by `PyVal` (dict keys at these call
    sites are strings or None).
  * Fallible Python operations (`float(x)`, `int(x)`, `Decimal(str(x))`)
    return `Option`; `try/except` blocks in the source become `match` on
    that option, the `except` arm giving the fallback the source uses.
-/

/-- Python `decimal.Decimal` (finite values): the represented number is
`coeff * 10 ^ exp`.  Trailing zeros of the literal are kept in `coeff`,
exactly as in Python (`Decimal("1.2300")` has coefficient 12300 and
exponent -4). -/
structure Dec where
  coeff : Int
  exp : Int
deriving DecidableEq

/-- Rational value denoted by a decimal. -/
def Dec.toRat (d : Dec) : ℚ :=
  if 0 ≤ d.exp then (d.coeff : ℚ) * (10 : ℚ) ^ d.exp.toNat
  else (d.coeff : ℚ) / (10 : ℚ) ^ (-d.exp).toNat

theorem Dec.toRat_eq_zpow (d : Dec) : d.toRat = (d.coeff : ℚ) * (10 : ℚ) ^ d.exp := by
  unfold Dec.toRat
  split
  · rw [← zpow_natCast (10 : ℚ) d.exp.toNat, Int.toNat_of_nonneg (by assumption)]
  · rw [div_eq_mul_inv, ← zpow_natCast (10 : ℚ) (-d.exp).toNat,
      Int.toNat_of_nonneg (by omega), ← zpow_neg, neg_neg]

/-- Multiplication of decimals (exact; Python adds the exponents and
multiplies the coefficients). -/
def decMul (a b : Dec) : Dec := ⟨a.coeff * b.coeff, a.exp + b.exp⟩

/-- Addition of decimals (exact; Python aligns to the smaller exponent). -/
def decAdd (a b : Dec) : Dec :=
  let m := min a.exp b.exp
  ⟨a.coeff * 10 ^ (a.exp - m).toNat + b.coeff * 10 ^ (b.exp - m).toNat, m⟩

theorem decMul_toRat (a b : Dec) : (decMul a b).toRat = a.toRat * b.toRat := by
  simp only [Dec.toRat_eq_zpow, decMul]
  push_cast
  rw [zpow_add₀ (by norm_num : (10 : ℚ) ≠ 0)]
  ring

theorem decAdd_toRat (a b : Dec) : (decAdd a b).toRat = a.toRat + b.toRat := by
  simp only [Dec.toRat_eq_zpow, decAdd]
  push_cast
  rw [← zpow_natCast (10 : ℚ) (a.exp - min a.exp b.exp).toNat,
    ← zpow_natCast (10 : ℚ) (b.exp - min a.exp b.exp).toNat,
    Int.toNat_of_nonneg (by omega), Int.toNat_of_nonneg (by omega),
    add_mul, mul_assoc, mul_assoc,
    ← zpow_add₀ (by norm_num : (10 : ℚ) ≠ 0),
    ← zpow_add₀ (by norm_num : (10 : ℚ) ≠ 0)]
  rcases le_total a.exp b.exp with h | h
  · rw [min_eq_left h]; ring_nf
  · rw [min_eq_right h]; ring_nf

/-- Half-up rounding of a rational to an integer, as `decimal.ROUND_HALF_UP`
does: ties go away from zero. -/
def halfUpZ (x : ℚ) : Int :=
  if 0 ≤ x then ⌊x + 1 / 2⌋ else -⌊-x + 1 / 2⌋

/-- The rational value that quantizing `q` to `10 ^ (-n)` with half-up
rounding must produce.  This is the specification-side description of
`Decimal.quantize(Decimal(1).scaleb(-n), rounding=ROUND_HALF_UP)`. -/
def halfUpQ (q : ℚ) (n : Int) : ℚ :=
  (halfUpZ (q * (10 : ℚ) ^ n) : ℚ) * (10 : ℚ) ^ (-n)

/-- Coefficient of the half-up quantization of `d` at target exponent `-n`.
When the current exponent is already at least `-n` the coefficient is
rescaled exactly; otherwise the surplus digits are divided away with ties
rounded away from zero (on the absolute value, hence away from zero). -/
def decQuantizeCoeff (d : Dec) (n : Int) : Int :=
  let shift := d.exp + n
  if 0 ≤ shift then d.coeff * 10 ^ shift.toNat
  else
    let den : Nat := 10 ^ (-shift).toNat
    let c : Nat := d.coeff.natAbs
    let q : Nat := c / den
    let m : Nat := if den ≤ 2 * (c % den) then q + 1 else q
    if d.coeff < 0 then -(m : Int) else (m : Int)

/-- Quantize a decimal to exponent `-n` with half-up rounding, mirroring
`d.quantize(Decimal(1).scaleb(-int(dec)), rounding=ROUND_HALF_UP)` in
`TagStore.get_value`. -/
def decQuantize (d : Dec) (n : Int) : Dec :=
  ⟨decQuantizeCoeff d n, -n⟩

theorem halfUpZ_intCast (k : Int) : halfUpZ (k : ℚ) = k := by
  unfold halfUpZ
  have h0 : (⌊(1 : ℚ) / 2⌋ : Int) = 0 := by
    rw [Int.floor_eq_iff] <;> norm_num
  split
  · rw [Int.floor_int_add, h0, add_zero]
  · rw [← Int.cast_neg, Int.floor_int_add, h0, add_zero, neg_neg]

theorem halfUpNat_floor_aux (q r den : Nat) (hden : 0 < den) (hr : r < den) :
    ⌊((den * q + r : Nat) : ℚ) / (den : ℚ) + 1 / 2⌋
      = (if den ≤ 2 * r then (q + 1 : Nat) else (q : Nat) : Int) := by
  have hdQ : (0 : ℚ) < (den : ℚ) := by exact_mod_cast hden
  have hrQ : (r : ℚ) < (den : ℚ) := by exact_mod_cast hr
  have hsum : ((den * q + r : Nat) : ℚ) / (den : ℚ) + 1 / 2
      = (2 * ((den : ℚ) * q + r) + den) / (2 * den) := by
    push_cast
    field_simp
    ring
  rw [hsum]
  split
  case isTrue h =>
    have hQ : (den : ℚ) ≤ 2 * (r : ℚ) := by exact_mod_cast h
    rw [Int.floor_eq_iff]
    constructor
    · rw [le_div_iff₀ (by positivity)]
      push_cast
      nlinarith [hrQ, hQ, hdQ]
    · rw [div_lt_iff₀ (by positivity)]
      push_cast
      nlinarith [hrQ, hQ, hdQ]
  case isFalse h =>
    have hQ : 2 * (r : ℚ) < (den : ℚ) := by
      exact_mod_cast Nat.lt_of_not_le h
    rw [Int.floor_eq_iff]
    constructor
    · rw [le_div_iff₀ (by positivity)]
      push_cast
      nlinarith [hrQ, hQ, hdQ]
    · rw [div_lt_iff₀ (by positivity)]
      push_cast
      nlinarith [hrQ, hQ, hdQ]

theorem halfUpNat_floor (c den : Nat) (hden : 0 < den) :
    ⌊(c : ℚ) / (den : ℚ) + 1 / 2⌋
      = (if den ≤ 2 * (c % den) then (c / den + 1 : Nat) else (c / den : Nat) : Int) := by
  have h := halfUpNat_floor_aux (c / den) (c % den) den hden (Nat.mod_lt _ hden)
  rw [Nat.div_add_mod] at h
  exact h

theorem decQuantize_exp (d : Dec) (n : Int) : (decQuantize d n).exp = -n := rfl

theorem decQuantizeCoeff_eq_halfUpZ (d : Dec) (n : Int) :
    decQuantizeCoeff d n = halfUpZ (d.toRat * (10 : ℚ) ^ n) := by
  have h10 : (10 : ℚ) ≠ 0 := by norm_num
  have hx : d.toRat * (10 : ℚ) ^ n = (d.coeff : ℚ) * (10 : ℚ) ^ (d.exp + n) := by
    rw [Dec.toRat_eq_zpow, mul_assoc, ← zpow_add₀ h10]
  unfold decQuantizeCoeff
  by_cases hs : 0 ≤ d.exp + n
  · rw [if_pos hs]
    have hk : d.toRat * (10 : ℚ) ^ n = ((d.coeff * 10 ^ (d.exp + n).toNat : Int) : ℚ) := by
      rw [hx]; push_cast
      rw [← zpow_natCast (10 : ℚ) (d.exp + n).toNat, Int.toNat_of_nonneg hs]
    rw [hk, halfUpZ_intCast]
  · rw [if_neg hs]
    have hden : (0 : Nat) < 10 ^ (-(d.exp + n)).toNat := pow_pos (by norm_num) _
    have hdenQ : (0 : ℚ) < ((10 ^ (-(d.exp + n)).toNat : Nat) : ℚ) := by exact_mod_cast hden
    have hcast : ((10 ^ (-(d.exp + n)).toNat : Nat) : ℚ) = (10 : ℚ) ^ (-(d.exp + n)) := by
      push_cast
      rw [← zpow_natCast (10 : ℚ) (-(d.exp + n)).toNat,
        Int.toNat_of_nonneg (by omega : (0 : Int) ≤ -(d.exp + n))]
    have hxval : d.toRat * (10 : ℚ) ^ n
        = (d.coeff : ℚ) / ((10 ^ (-(d.exp + n)).toNat : Nat) : ℚ) := by
      rw [hx, hcast, div_eq_mul_inv, ← zpow_neg, neg_neg]
    set den : Nat := 10 ^ (-(d.exp + n)).toNat with hdendef
    set c : Nat := d.coeff.natAbs with hcdef
    have hfloor := halfUpNat_floor c den hden
    rcases le_or_lt 0 d.coeff with hc | hc
    · have hcabs : ((c : Nat) : ℚ) = (d.coeff : ℚ) := by
        rw [hcdef, Int.cast_natAbs]
        exact_mod_cast abs_of_nonneg hc
      have hxnn : 0 ≤ d.toRat * (10 : ℚ) ^ n := by
        rw [hxval, ← hcabs]; positivity
      unfold halfUpZ
      rw [if_pos hxnn, hxval, ← hcabs, hfloor, if_neg (by omega : ¬ d.coeff < 0)]
      split <;> push_cast <;> ring
    · have hcabs : ((c : Nat) : ℚ) = -(d.coeff : ℚ) := by
        rw [hcdef, Int.cast_natAbs]
        exact_mod_cast abs_of_neg hc
      have hxneg : d.toRat * (10 : ℚ) ^ n < 0 := by
        rw [hxval]
        apply div_neg_of_neg_of_pos _ hdenQ
        exact_mod_cast hc
      unfold halfUpZ
      rw [if_neg (not_le.mpr hxneg), hxval, if_pos hc]
      have hnegdiv : -((d.coeff : ℚ) / (den : ℚ)) = ((c : Nat) : ℚ) / (den : ℚ) := by
        rw [hcabs]; ring
      rw [hnegdiv, hfloor]
      split <;> push_cast <;> ring

theorem decQuantize_toRat (d : Dec) (n : Int) :
    (decQuantize d n).toRat = halfUpQ d.toRat n := by
  rw [show (decQuantize d n).toRat
      = ((decQuantizeCoeff d n : ℚ)) * (10 : ℚ) ^ (-n : Int) from Dec.toRat_eq_zpow _,
    decQuantizeCoeff_eq_halfUpZ]
  rfl

/-! ### Decimal numerals: printing and parsing

`decToStr` follows the fixed-point/scientific layout of `Decimal.__str__`
(CPython `_pydecimal`, finite case): fixed-point notation when
`exp ≤ 0` and the adjusted position of the decimal point is above `-6`,
scientific notation with a one-digit integer part otherwise.
`decFromStr` accepts the numeric strings `Decimal(...)`/`float(...)`
accept: optional sign, digits with an optional fraction part, optional
exponent part.  (Surrounding whitespace and the special values
Infinity/NaN are outside the modelled fragment.) -/

/-- Decimal digit character for a value below ten. -/
def digitChar (n : Nat) : Char := Char.ofNat (48 + n)

/-- Digits of a natural number, most significant first (fuel-driven). -/
def natStrAux (fuel n : Nat) : List Char :=
  match fuel with
  | 0 => []
  | f + 1 => if n < 10 then [digitChar n] else natStrAux f (n / 10) ++ [digitChar (n % 10)]

/-- Decimal numeral of a natural number, as Python `str` renders it. -/
def natStr (n : Nat) : String := String.mk (natStrAux (n + 1) n)

/-- Decimal numeral of an integer, as Python `str` renders it. -/
def intStr (n : Int) : String :=
  if n < 0 then "-" ++ natStr n.natAbs else natStr n.natAbs

/-- String form of a finite `Decimal`, as `Decimal.__str__` produces it. -/
def decToStr (d : Dec) : String :=
  let sgn := if d.coeff < 0 then "-" else ""
  let ds := (natStr d.coeff.natAbs).toList
  let len : Int := ds.length
  let leftdigits : Int := d.exp + len
  let body :=
    if d.exp ≤ 0 ∧ -6 < leftdigits then
      if leftdigits ≤ 0 then
        "0." ++ String.mk (List.replicate (-leftdigits).toNat '0') ++ String.mk ds
      else if len ≤ leftdigits then String.mk ds
      else String.mk (ds.take leftdigits.toNat) ++ "." ++ String.mk (ds.drop leftdigits.toNat)
    else
      let mant :=
        if len = 1 then String.mk ds
        else String.mk (ds.take 1) ++ "." ++ String.mk (ds.drop 1)
      let e := leftdigits - 1
      mant ++ "E" ++ (if 0 ≤ e then "+" ++ natStr e.toNat else "-" ++ natStr (-e).toNat)
  sgn ++ body

/-- Split a character list into its leading run of decimal digits and the
rest. -/
def spanDigits : List Char → List Char × List Char
  | [] => ([], [])
  | ch :: rest =>
    if ch.isDigit then
      let (ds, rs) := spanDigits rest
      (ch :: ds, rs)
    else ([], ch :: rest)

/-- Numeric value of a digit run (most significant first). -/
def digitsToNat (ds : List Char) : Nat :=
  ds.foldl (fun acc ch => acc * 10 + (ch.toNat - 48)) 0

/-- Parse the exponent part after `e`/`E`: optional sign, then a nonempty
run of digits consuming the whole rest. -/
def parseExpPart (chars : List Char) : Option Int :=
  let (sgn, rest) : Int × List Char :=
    match chars with
    | '+' :: r => (1, r)
    | '-' :: r => (-1, r)
    | r => (1, r)
  let (ds, rs) := spanDigits rest
  if ds ≠ [] ∧ rs = [] then some (sgn * digitsToNat ds) else none

/-- Assemble a parsed decimal from sign, integer digits, fraction digits
and the remaining characters (either empty or an exponent part). -/
def decFromParts (sgn : Int) (ip fp rest : List Char) : Option Dec :=
  let coeff : Int := sgn * (digitsToNat (ip ++ fp) : Int)
  match rest with
  | [] => some ⟨coeff, -(fp.length : Int)⟩
  | ch :: r =>
    if ch = 'e' ∨ ch = 'E' then
      (parseExpPart r).map fun e => ⟨coeff, e - (fp.length : Int)⟩
    else none

/-- Parse a numeric string the way `Decimal(s)` (and, for the numeral
fragment used here, `float(s)`) does; `none` models the conversion
raising. -/
def decFromStr (s : String) : Option Dec :=
  let (sgn, rest) : Int × List Char :=
    match s.toList with
    | '+' :: r => (1, r)
    | '-' :: r => (-1, r)
    | r => (1, r)
  let (ip, rest1) := spanDigits rest
  match rest1 with
  | '.' :: rest2 =>
    let (fp, rest3) := spanDigits rest2
    if ip = [] ∧ fp = [] then none else decFromParts sgn ip fp rest3
  | _ => if ip = [] then none else decFromParts sgn ip [] rest1

example : decFromStr "1.2300" = some ⟨12300, -4⟩ := by rfl
example : decFromStr "42" = some ⟨42, 0⟩ := by rfl
example : decFromStr "-9.81" = some ⟨-981, -2⟩ := by rfl
example : decFromStr "1E+3" = some ⟨1, 3⟩ := by rfl
example : decFromStr "abc" = none := by rfl
example : decFromStr "" = none := by rfl
example : decToStr ⟨12300, -4⟩ = "1.2300" := by rfl
example : decToStr ⟨42, 0⟩ = "42" := by rfl
example : decToStr ⟨-981, -2⟩ = "-9.81" := by rfl
example : decToStr ⟨5, -8⟩ = "5E-8" := by rfl

/-! ### Dynamic Python values -/

/-- Dynamic Python values as the tag store handles them: `None`, booleans,
integers, floats (represented by the decimal numeral of their `repr`, see
the module comment), `Decimal` instances, and strings. -/
inductive PyVal where
  | none
  | bool (b : Bool)
  | int (n : Int)
  | float (lit : Dec)
  | dec (d : Dec)
  | str (s : String)
deriving DecidableEq

/-- Python truthiness (`bool(x)`) on the modelled values: numbers are true
when nonzero, strings when nonempty. -/
def pyTruthy : PyVal → Bool
  | .none => false
  | .bool b => b
  | .int n => n != 0
  | .float q => q.coeff != 0
  | .dec d => d.coeff != 0
  | .str s => s != ""

/-- Python `str(x)` on the modelled values. -/
def pyStr : PyVal → String
  | .none => "None"
  | .bool true => "True"
  | .bool false => "False"
  | .int n => intStr n
  | .float q => decToStr q
  | .dec d => decToStr d
  | .str s => s

/-- Model of `Decimal(str(x))`: for an `int`, `str` yields its decimal
numeral, which `Decimal` parses exactly; for a `float`, `str` yields the
repr literal that represents it here; for a `Decimal`, `str` round-trips
exactly (the Python constructor is exact on the output of `__str__`); for a
string, `str` is the identity and the constructor parses it; for `None`
and booleans the constructor raises (`none`). -/
def decOfPy : PyVal → Option Dec
  | .int n => some ⟨n, 0⟩
  | .float q => some q
  | .dec d => some d
  | .str s => decFromStr s
  | .bool _ => Option.none
  | .none => Option.none

/-- Model of `float(x)`: value-preserving on numbers (a float is
represented here by its decimal repr literal), parses numeric strings,
raises (`none`) on `None` and non-numeric strings. -/
def pyFloat : PyVal → Option Dec
  | .bool b => some ⟨if b then 1 else 0, 0⟩
  | .int n => some ⟨n, 0⟩
  | .float q => some q
  | .dec d => some d
  | .str s => decFromStr s
  | .none => Option.none

/-- Truncation toward zero, as Python `int()` does on numbers. -/
def ratTrunc (q : ℚ) : Int := if 0 ≤ q then ⌊q⌋ else -⌊-q⌋

/-- Parse an integer string as `int(s)` does: optional sign then digits,
nothing else. -/
def intFromStr (s : String) : Option Int :=
  let (sgn, rest) : Int × List Char :=
    match s.toList with
    | '+' :: r => (1, r)
    | '-' :: r => (-1, r)
    | r => (1, r)
  let (ds, rs) := spanDigits rest
  if ds ≠ [] ∧ rs = [] then some (sgn * digitsToNat ds) else none

/-- Model of `int(x)`: identity on integers, truncation on floats and
decimals, strict digit-string parse on strings, booleans count as 0/1,
raises (`none`) on `None`. -/
def pyInt : PyVal → Option Int
  | .bool b => some (if b then 1 else 0)
  | .int n => some n
  | .float q => some (ratTrunc q.toRat)
  | .dec d => some (ratTrunc d.toRat)
  | .str s => intFromStr s
  | .none => Option.none

/-! ### String helpers used by the tag store -/

/-- Lower-casing as Python `str.lower()` (ASCII fragment). -/
def strLower (s : String) : String := String.mk (s.toList.map Char.toLower)

/-- Python `s.startswith(pre)`. -/
def strStartsWith (s pre : String) : Bool := pre.toList.isPrefixOf s.toList

/-- Python `needle in hay` on strings (substring containment). -/
def strContainsSub (hay needle : String) : Bool :=
  hay.toList.tails.any fun t => needle.toList.isPrefixOf t

/-- The test `str(tag.data_type).lower().startswith("bool")` from
`TagStore.get_value`. -/
def dtypeIsBool (dt : PyVal) : Bool := strStartsWith (strLower (pyStr dt)) "bool"

/-! ### Tag metadata and the tag store (src/vs_opc/tag_store.py)

`Tag` is the dataclass of src/vs_opc/models.py.  The dataclass performs no
validation, so fields that REST payloads can fill with arbitrary JSON
values are modelled as `PyVal` (`decimals` uses `PyVal.none` for Python
`None`, its dataclass default).  `writable` and `enabled` are always
booleans because every writer passes them through `bool(...)`.
`client_visible` is never inspected by the modelled code and is kept
opaque (`Option.none` stands for its `[]` default). -/

structure Tag where
  tag_id : PyVal
  name : PyVal
  plc_id : PyVal
  address : PyVal
  data_type : PyVal
  group_id : PyVal
  project_id : PyVal
  scale_mul : PyVal
  scale_add : PyVal
  decimals : PyVal
  writable : Bool
  description : PyVal
  enabled : Bool
  client_visible : Option PyVal
deriving DecidableEq

/-- Lookup in a Python dict modelled as an association list (keys at the
modelled call sites are strings or `None`). -/
def dictGet {α : Type} : List (PyVal × α) → PyVal → Option α
  | [], _ => Option.none
  | e :: rest, k => if e.1 = k then some e.2 else dictGet rest k

/-- Insert-or-replace update of a Python dict (`d[k] = v`). -/
def dictSet {α : Type} : List (PyVal × α) → PyVal → α → List (PyVal × α)
  | [], k, v => [(k, v)]
  | e :: rest, k, v => if e.1 = k then (k, v) :: rest else e :: dictSet rest k v

/-- Removal from a Python dict (`d.pop(k, None)`). -/
def dictPop {α : Type} (d : List (PyVal × α)) (k : PyVal) : List (PyVal × α) :=
  d.filter fun e => !(decide (e.1 = k))

/-- The tag store: the `_tags` metadata dict and the `_values` dict of
`TagStore`.  The reentrant mutex serializes every operation, so each
method is modelled as a pure state transformer. -/
structure TagStore where
  tags : List (PyVal × Tag)
  values : List (PyVal × PyVal)
deriving DecidableEq

def TagStore.empty : TagStore := ⟨[], []⟩

/-- The expression `tag.data_type.lower() if tag.data_type else ""` in
`TagStore.add_tag`; calling `.lower()` on a truthy non-string raises
(`none`). -/
def dtLowerOrEmpty (dt : PyVal) : Option String :=
  if pyTruthy dt then
    match dt with
    | .str s => some (strLower s)
    | _ => Option.none
  else some ""

/-- Type-based default initial value in `TagStore.add_tag`: `False` when
the lowered data type starts with `bool`, `0` when it contains `int`,
and the float `0.0` otherwise. -/
def defaultForDt (dt : String) : PyVal :=
  if strStartsWith dt "bool" then .bool false
  else if strContainsSub dt "int" then .int 0
  else .float ⟨0, -1⟩

/-- `TagStore.add_tag(tag, initial_value)` (tag_store.py lines 19-34).
The metadata dict is written first; when no initial value is given the
type default is stored.  The boolean is `false` when computing the
default raised (`.lower()` on a truthy non-string data type) — in that
case the metadata write has already happened, as in the source. -/
def TagStore.add_tag (st : TagStore) (tag : Tag) (initial : PyVal) : TagStore × Bool :=
  let tags' := dictSet st.tags tag.tag_id tag
  if initial ≠ .none then
    ({ tags := tags', values := dictSet st.values tag.tag_id initial }, true)
  else
    match dtLowerOrEmpty tag.data_type with
    | Option.none => ({ tags := tags', values := st.values }, false)
    | some dt =>
      ({ tags := tags', values := dictSet st.values tag.tag_id (defaultForDt dt) }, true)

/-- `TagStore.set_value` (both branches store the value). -/
def TagStore.set_value (st : TagStore) (tid v : PyVal) : TagStore :=
  { st with values := dictSet st.values tid v }

/-- `TagStore.remove_tag`. -/
def TagStore.remove_tag (st : TagStore) (tid : PyVal) : TagStore :=
  ⟨dictPop st.tags tid, dictPop st.values tid⟩

/-- `TagStore.clear_tags`. -/
def TagStore.clear_tags (_st : TagStore) : TagStore := ⟨[], []⟩

/-- `TagStore.get_raw_value` (`self._values.get(tag_id)`). -/
def TagStore.get_raw_value (st : TagStore) (tid : PyVal) : PyVal :=
  (dictGet st.values tid).getD .none

/-- Whether a value is a Python `bool` (`isinstance(raw, bool)`). -/
def PyVal.isBool : PyVal → Bool
  | .bool _ => true
  | _ => false

/-- `TagStore.get_value` (tag_store.py lines 41-105), translated branch by
branch:
  * missing value entry (or a stored `None`) returns `None`;
  * missing tag metadata returns the raw value;
  * boolean raw values and boolean-typed tags return the raw value;
  * `mul`/`add` are `float(scale_mul)`/`float(scale_add)` with the
    `except` fallbacks `1.0`/`0.0`;
  * with default scaling the raw value is converted by `Decimal(str(raw))`
    and optionally quantized; any failure in that `try` returns the raw
    value;
  * otherwise `scaled = Decimal(str(raw)) * Decimal(str(mul)) +
    Decimal(str(add))` is computed and optionally quantized; a failure in
    the inner quantize `try` returns `scaled`, a conversion failure in the
    outer `try` returns the raw value. -/
def TagStore.get_value (st : TagStore) (tid : PyVal) : PyVal :=
  let raw := (dictGet st.values tid).getD .none
  if raw = .none then .none
  else
    match dictGet st.tags tid with
    | Option.none => raw
    | some tag =>
      if raw.isBool || dtypeIsBool tag.data_type then raw
      else
        let mul := (pyFloat tag.scale_mul).getD ⟨10, -1⟩
        let add := (pyFloat tag.scale_add).getD ⟨0, -1⟩
        if mul.toRat = 1 ∧ add.toRat = 0 then
          match decOfPy raw with
          | Option.none => raw
          | some d =>
            if tag.decimals = .none then .dec d
            else
              match pyInt tag.decimals with
              | Option.none => raw
              | some n => .dec (decQuantize d n)
        else
          match decOfPy raw with
          | Option.none => raw
          | some num =>
            let scaled := decAdd (decMul num mul) add
            if tag.decimals = .none then .dec scaled
            else
              match pyInt tag.decimals with
              | Option.none => .dec scaled
              | some n => .dec (decQuantize scaled n)

/-! ### Reconnect/backoff state machine and health records
(src/vs_opc/plc_gateway_server.py)

`plc_health` holds one record per logical PLC.  The initial dict literal
has no `last_backoff` key, so that field is an `Option`.  Time stamps are
rationals (`time.time()` values are only compared and added here).
`try_reconnect_helper` and the health effects of
`read_compactlogix_tags`/`read_slc500_tags` depend on the environment
only through the driver probing outcome, which we abstract as an
inductive parameter; metrics and log pushes are effect-free on the
modelled state and are omitted. -/

/-- `compute_backoff_delay` (plc_gateway_server.py lines 302-306) with the
module globals `RECONNECT_BASE`/`RECONNECT_MAX` as parameters. -/
def compute_backoff_delay (base maxd : ℚ) (n : Int) : ℚ :=
  if n ≤ 0 then 0 else min (base * 2 ^ (max 0 (n - 1)).toNat) maxd

/-- One `plc_health[key]` record.  `fail_count` is a natural number: the
code only ever zeroes or increments it (the spec types it `u32`). -/
structure Health where
  ok : Bool
  last_success : ℚ
  last_error : Option String
  fail_count : Nat
  next_attempt : ℚ
  last_backoff : Option ℚ
  recent_errors : List (ℚ × String)
deriving DecidableEq

/-- The initial health record from the `plc_health` dict literal (no
`last_backoff` key). -/
def initHealth : Health :=
  ⟨false, 0, Option.none, 0, 0, Option.none, []⟩

/-- Append to a `deque(maxlen=10)`. -/
def dequeAppend10 (l : List (ℚ × String)) (e : ℚ × String) : List (ℚ × String) :=
  let l2 := l ++ [e]
  if 10 < l2.length then l2.drop (l2.length - 10) else l2

/-- The failure bookkeeping shared by the backoff paths of
`try_reconnect_helper`: append the error, bump `fail_count`, set
`next_attempt = now + delay` and `last_backoff = delay` with
`delay = compute_backoff_delay(fail_count)`. -/
def backoffFailure (base maxd now : ℚ) (msg : String) (h : Health) : Health :=
  let fc := h.fail_count + 1
  let delay := compute_backoff_delay base maxd (fc : Int)
  { h with
    recent_errors := dequeAppend10 h.recent_errors (now, msg),
    fail_count := fc,
    next_attempt := now + delay,
    last_backoff := some delay }

/-- Outcome of the driver probing inside `try_reconnect_helper`:
the driver already reports connected (line 419), `open()` made it
connected (line 444), a recreated driver is connected (line 471), a
recreated driver opened but stays disconnected (health untouched, the new
driver is returned), or driver recreation raised (line 485). -/
inductive ReconnectOutcome where
  | connected
  | openedConnected
  | recreatedConnected
  | recreatedNotConnected
  | recreateFailed (msg : String)
deriving DecidableEq

/-- Health effect of one `try_reconnect_helper` tick
(plc_gateway_server.py lines 341-592, environment-gated test hook and
metrics omitted): skip everything while the gate `now < next_attempt` is
closed; zero `fail_count` and `next_attempt` on any connected outcome;
run the backoff bookkeeping when recreation raised. -/
def try_reconnect_helper (base maxd now : ℚ) (o : ReconnectOutcome) (h : Health) : Health :=
  if now < h.next_attempt then h
  else
    match o with
    | .connected => { h with fail_count := 0, next_attempt := 0 }
    | .openedConnected => { h with fail_count := 0, next_attempt := 0 }
    | .recreatedConnected => { h with fail_count := 0, next_attempt := 0 }
    | .recreatedNotConnected => h
    | .recreateFailed msg => backoffFailure base maxd now ("recreate error: " ++ msg) h

/-- Outcome of one `read_compactlogix_tags`/`read_slc500_tags` call as far
as the health record is concerned: shutdown signalled, driver not
connected, no matching tags/addresses configured, reads succeeded, or the
read raised with a message. -/
inductive ReadOutcome where
  | shutdownSkip
  | notConnected
  | noTags
  | success
  | failure (msg : String)
deriving DecidableEq

/-- Health effect of one PLC read worker invocation
(`read_compactlogix_tags` lines 600-734 and identically
`read_slc500_tags` lines 736-845): success resets `ok/last_success/
last_error` and zeroes `fail_count`/`next_attempt` (lines 669-674); a
raised read records the error and bumps `fail_count` but touches neither
`next_attempt` nor `last_backoff` (lines 694-698); a disconnected driver
records `not connected` (lines 611-614). -/
def read_plc_tags_health (now : ℚ) (o : ReadOutcome) (h : Health) : Health :=
  match o with
  | .shutdownSkip => h
  | .noTags => h
  | .notConnected => { h with ok := false, last_error := some "not connected" }
  | .success =>
    { h with ok := true, last_success := now, last_error := Option.none,
             fail_count := 0, next_attempt := 0 }
  | .failure msg =>
    { h with ok := false, last_error := some msg,
             fail_count := h.fail_count + 1,
             recent_errors := dequeAppend10 h.recent_errors (now, msg) }

/-- One serialized `plc_health` entry of the `/api/v1/hmi/health` response. -/
structure HealthOut where
  ok : Bool
  last_success : ℚ
  last_error : Option String
  fail_count : Nat
  next_attempt : ℚ
  last_backoff : ℚ
  recent_errors : List (ℚ × String)
deriving DecidableEq

/-- The per-PLC snapshot built by `get_hmi_health`
(plc_gateway_server.py lines 1272-1293): report the stored
`last_backoff` when the key exists, otherwise fall back to
`compute_backoff_delay(fail_count)`. -/
def health_snapshot_entry (base maxd : ℚ) (h : Health) : HealthOut :=
  let fb := match h.last_backoff with
    | some v => v
    | Option.none => compute_backoff_delay base maxd (h.fail_count : Int)
  ⟨h.ok, h.last_success, h.last_error, h.fail_count, h.next_attempt, fb, h.recent_errors⟩

/-- The `status` field of the `/api/v1/hmi/health` response
(lines 1267-1270, 1296): `healthy = last != 0 and age is not None and
age < 5` with `age = now - last`. -/
def health_status (now last : ℚ) : String :=
  if last ≠ 0 ∧ now - last < 5 then "ok" else "degraded"

/-! ### REST surface (src/vs_opc/api.py)

A JSON request body is modelled by the fields the handlers read
(`t.get(...)`): `Option.none` means the key is absent, `some v` that it
is present with value `v` (possibly `PyVal.none` for JSON null). -/

structure TagPayload where
  tag_id : Option PyVal
  name : Option PyVal
  plc_id : Option PyVal
  address : Option PyVal
  data_type : Option PyVal
  group_id : Option PyVal
  description : Option PyVal
  project_id : Option PyVal
  scale_mul : Option PyVal
  scale_add : Option PyVal
  writable : Option PyVal
  enabled : Option PyVal
  client_visible : Option PyVal
  initial_value : Option PyVal
deriving DecidableEq

/-- `t.get(key)`: `None` when absent. -/
def getField (o : Option PyVal) : PyVal := o.getD .none

/-- `t.get(key, dflt)`: the default only when the key is absent. -/
def getFieldD (o : Option PyVal) (dflt : PyVal) : PyVal := o.getD dflt

/-- Python `a or b`. -/
def pyOr (a b : PyVal) : PyVal := if pyTruthy a then a else b

/-- The `Tag(...)` construction shared by the POST handler `add_tag`
(api.py lines 38-52) and `import_tags` (lines 212-226).  The only
fallible steps are `float(t.get("scale_mul", 1.0))` and
`float(t.get("scale_add", 0.0))`; `none` models those raising. -/
def buildTag (t : TagPayload) : Option Tag :=
  match pyFloat (getFieldD t.scale_mul (.float ⟨10, -1⟩)),
      pyFloat (getFieldD t.scale_add (.float ⟨0, -1⟩)) with
  | some sm, some sa =>
    some
      { tag_id := pyOr (getField t.tag_id) (getField t.name)
        name := getFieldD t.name (getField t.tag_id)
        plc_id := getFieldD t.plc_id (.str "plc_1")
        address := getFieldD t.address (.str "")
        data_type := getFieldD t.data_type (.str "Double")
        group_id := getFieldD t.group_id (.str "default")
        description := getField t.description
        project_id := getField t.project_id
        scale_mul := .float sm
        scale_add := .float sa
        decimals := .none
        writable := pyTruthy (getFieldD t.writable (.bool false))
        enabled := pyTruthy (getFieldD t.enabled (.bool true))
        client_visible := t.client_visible }
  | _, _ => Option.none

/-- Result of a mutating REST handler: HTTP status, the id list of the
success body (`created`/`imported`), and the tag store afterwards. -/
structure PostResult where
  status : Nat
  ids : List PyVal
  store : TagStore
deriving DecidableEq

/-- Loop body of the POST `/api/v1/tags` handler `add_tag` (api.py lines
35-73): each tag is built and added inside a `try`; on an exception the
handler returns 400 immediately, keeping every mutation made so far.
There is no payload validation on this route. -/
def api_add_tag_loop : TagStore → List TagPayload → List PyVal → PostResult
  | st, [], acc => ⟨201, acc.reverse, st⟩
  | st, t :: rest, acc =>
    match buildTag t with
    | Option.none => ⟨400, [], st⟩
    | some tag =>
      match st.add_tag tag (getField t.initial_value) with
      | (st2, true) => api_add_tag_loop st2 rest (tag.tag_id :: acc)
      | (st2, false) => ⟨400, [], st2⟩

/-- POST `/api/v1/tags` on an already-extracted tag list (a single-object
body is the one-element list, per lines 30-33). -/
def api_add_tag (st : TagStore) (payload_tags : List TagPayload) : PostResult :=
  api_add_tag_loop st payload_tags []

/-- `_validate_tag_payload` (api.py lines 76-86): `tag_id or name` must be
truthy and a string, and `data_type or "Double"` must be a string. -/
def validate_tag_payload (t : TagPayload) : Bool :=
  let tid := pyOr (getField t.tag_id) (getField t.name)
  (pyTruthy tid && (match tid with | .str _ => true | _ => false))
    && (match pyOr (getField t.data_type) (.str "Double") with
        | .str _ => true
        | _ => false)

/-- Loop body of `import_tags` (api.py lines 207-237): each payload is
validated first (400 stops the loop, keeping earlier additions); the
`Tag(...)` construction is not inside a `try` here, so a raising
`float()` escapes as a 500. -/
def api_import_tags_loop : TagStore → List TagPayload → List PyVal → PostResult
  | st, [], acc => ⟨200, acc.reverse, st⟩
  | st, t :: rest, acc =>
    if validate_tag_payload t then
      match buildTag t with
      | Option.none => ⟨500, [], st⟩
      | some tag =>
        match st.add_tag tag (getField t.initial_value) with
        | (st2, true) => api_import_tags_loop st2 rest (tag.tag_id :: acc)
        | (st2, false) => ⟨500, [], st2⟩
    else ⟨400, [], st⟩

/-- PUT `/api/v1/tags/import` (api.py lines 190-239): 400 when the `tags`
field is not a list; with `replace_all` the store is cleared before any
validation. -/
def api_import_tags (replaceAll : Bool) (tagsField : Option (List TagPayload))
    (st : TagStore) : PostResult :=
  match tagsField with
  | Option.none => ⟨400, [], st⟩
  | some ps =>
    let st0 := if replaceAll then st.clear_tags else st
    api_import_tags_loop st0 ps []

/-- JSON values as `_json_response` emits them for the fields modelled
here. -/
inductive Json where
  | null
  | jbool (b : Bool)
  | jint (n : Int)
  | jnum (q : ℚ)
  | jstr (s : String)
deriving DecidableEq

/-- The `_convert` step of `_json_response` (api.py lines 248-268) on a
single value: a `Decimal` equal to its integral value becomes a JSON
integer, any other `Decimal` a JSON number (`float(o)`); everything else
passes through to `json.dumps`. -/
def jsonOfPy : PyVal → Json
  | .none => .null
  | .bool b => .jbool b
  | .int n => .jint n
  | .float q => .jnum q.toRat
  | .dec d => if d.toRat.den = 1 then .jint d.toRat.num else .jnum d.toRat
  | .str s => .jstr s

/-- GET `/api/v1/tags/{id}` (api.py lines 89-131), restricted to the
`value` field of the response: 404 when the tag is missing; otherwise the
scaled value, replaced by `str(val)` when both the raw stored value and
the scaled value are `Decimal` instances, then serialized by
`_json_response`. -/
def api_get_tag_value (st : TagStore) (tid : PyVal) : Nat × Json :=
  match dictGet st.tags tid with
  | Option.none => (404, .null)
  | some tag =>
    let val := st.get_value tag.tag_id
    let raw := st.get_raw_value tag.tag_id
    let out := match raw, val with
      | .dec _, .dec dv => PyVal.str (decToStr dv)
      | _, _ => val
    (200, jsonOfPy out)

/-! ### Helper lemmas -/

theorem dictGet_dictSet_self {α : Type} (d : List (PyVal × α)) (k : PyVal) (v : α) :
    dictGet (dictSet d k v) k = some v := by
  induction d with
  | nil => simp [dictSet, dictGet]
  | cons e rest ih =>
    by_cases h : e.1 = k
    · simp [dictSet, h, dictGet]
    · simp [dictSet, h, dictGet, ih]

theorem dtLowerOrEmpty_str (s : String) : dtLowerOrEmpty (.str s) = some (strLower s) := by
  unfold dtLowerOrEmpty
  by_cases h : s = ""
  · subst h; rfl
  · have ht : pyTruthy (.str s) = true := by
      simp [pyTruthy, h]
    rw [if_pos ht]

/-- Delay positivity: a positive fail count yields a strictly positive
backoff delay whenever `RECONNECT_BASE` and `RECONNECT_MAX` are positive
(as their defaults 1.0 and 60.0 are). -/
theorem compute_backoff_delay_pos (base maxd : ℚ) (hb : 0 < base) (hm : 0 < maxd)
    (n : Int) (hn : 0 < n) : 0 < compute_backoff_delay base maxd n := by
  unfold compute_backoff_delay
  rw [if_neg (by omega)]
  apply lt_min _ hm
  positivity

/-! ### C1 — the backoff delay formula -/

/-- C1: `compute_backoff_delay(n)` returns 0 for `n ≤ 0` and
`min(BASE * 2^(n-1), MAX)` otherwise; with `BASE = 1` and `MAX = 4` the
outputs for `n = 0,1,2,3,4` are `0, 1, 2, 4, 4`. -/
theorem C1_compute_backoff_delay_spec (base maxd : ℚ) (n : Int) :
    (n ≤ 0 → compute_backoff_delay base maxd n = 0)
    ∧ (0 < n → compute_backoff_delay base maxd n = min (base * 2 ^ (n - 1).toNat) maxd)
    ∧ compute_backoff_delay 1 4 0 = 0
    ∧ compute_backoff_delay 1 4 1 = 1
    ∧ compute_backoff_delay 1 4 2 = 2
    ∧ compute_backoff_delay 1 4 3 = 4
    ∧ compute_backoff_delay 1 4 4 = 4 := by
  refine ⟨?_, ?_, ?_, ?_, ?_, ?_, ?_⟩
  · intro h
    simp [compute_backoff_delay, h]
  · intro h
    have h2 : max 0 (n - 1) = n - 1 := by omega
    unfold compute_backoff_delay
    rw [if_neg (by omega : ¬ n ≤ 0), h2]
  all_goals norm_num [compute_backoff_delay, min_def,
    show Int.toNat 0 = 0 from rfl, show Int.toNat 1 = 1 from rfl,
    show Int.toNat 2 = 2 from rfl, show Int.toNat 3 = 3 from rfl]

/-- Witness for C1 at `n = 3`, `BASE = 1`, `MAX = 4`. -/
theorem C1_compute_backoff_delay_spec_witness :
    compute_backoff_delay 1 4 3 = min ((1 : ℚ) * 2 ^ ((3 : Int) - 1).toNat) 4 :=
  (C1_compute_backoff_delay_spec 1 4 3).2.1 (by decide)

/-! ### C5 — type-based default initial values in `add_tag` -/

/-- A concrete tag with the given id and data type and otherwise default
metadata (as a REST POST without scaling fields produces it). -/
def mkTag (tid dt : String) : Tag :=
  { tag_id := .str tid
    name := .str tid
    plc_id := .str "plc_1"
    address := .str ""
    data_type := .str dt
    group_id := .str "default"
    description := .none
    project_id := .none
    scale_mul := .float ⟨10, -1⟩
    scale_add := .float ⟨0, -1⟩
    decimals := .none
    writable := false
    enabled := true
    client_visible := Option.none }

/-- Counterexample to C5: adding a `String`-typed tag with no initial
value stores the float `0.0`, not the empty string `""` the claim
demands (`"int" in "string"` is false and the final branch of
`TagStore.add_tag` applies to every non-bool non-int type). -/
theorem C5_counterexample :
    dictGet (TagStore.empty.add_tag (mkTag "T" "String") .none).1.values (.str "T")
      = some (.float ⟨0, -1⟩)
    ∧ (PyVal.float ⟨0, -1⟩) ≠ (PyVal.str "") := by
  constructor
  · decide
  · decide

/-- C5 (amended): for a tag added with no initial value, `add_tag` stores
`False` when the lowered data type starts with `bool`, `0` when it
contains `int` (so for every integer-typed tag), and the float `0.0` for
every other data type — including `String`, which gets `0.0` rather than
`""`. -/
theorem C5_add_tag_defaults (st : TagStore) (tag : Tag) (s : String)
    (hdt : tag.data_type = .str s) :
    (strStartsWith (strLower s) "bool" = true →
      dictGet (st.add_tag tag .none).1.values tag.tag_id = some (.bool false))
    ∧ (strStartsWith (strLower s) "bool" = false →
        strContainsSub (strLower s) "int" = true →
      dictGet (st.add_tag tag .none).1.values tag.tag_id = some (.int 0))
    ∧ (strStartsWith (strLower s) "bool" = false →
        strContainsSub (strLower s) "int" = false →
      dictGet (st.add_tag tag .none).1.values tag.tag_id = some (.float ⟨0, -1⟩)) := by
  have hadd : st.add_tag tag .none
      = ({ tags := dictSet st.tags tag.tag_id tag,
           values := dictSet st.values tag.tag_id (defaultForDt (strLower s)) }, true) := by
    unfold TagStore.add_tag
    rw [if_neg (by simp), hdt, dtLowerOrEmpty_str]
  refine ⟨?_, ?_, ?_⟩
  · intro h1
    rw [hadd]
    simp only [dictGet_dictSet_self, defaultForDt, h1, if_pos]
  · intro h1 h2
    rw [hadd]
    simp [dictGet_dictSet_self, defaultForDt, h1, h2]
  · intro h1 h2
    rw [hadd]
    simp [dictGet_dictSet_self, defaultForDt, h1, h2]

/-- Witness for C5 (amended) at the three concrete data types `Boolean`,
`Int32` and `Double`. -/
theorem C5_add_tag_defaults_witness :
    dictGet (TagStore.empty.add_tag (mkTag "B" "Boolean") .none).1.values (.str "B")
      = some (.bool false)
    ∧ dictGet (TagStore.empty.add_tag (mkTag "I" "Int32") .none).1.values (.str "I")
      = some (.int 0)
    ∧ dictGet (TagStore.empty.add_tag (mkTag "D" "Double") .none).1.values (.str "D")
      = some (.float ⟨0, -1⟩) :=
  ⟨(C5_add_tag_defaults TagStore.empty (mkTag "B" "Boolean") "Boolean" (by decide)).1 (by decide),
   (C5_add_tag_defaults TagStore.empty (mkTag "I" "Int32") "Int32" (by decide)).2.1
     (by decide) (by decide),
   (C5_add_tag_defaults TagStore.empty (mkTag "D" "Double") "Double" (by decide)).2.2
     (by decide) (by decide)⟩

/-! ### C3 — the health-record invariant -/

/-- The claimed invariant on a health record, reading an absent
`last_backoff` key as 0 (that is how `/hmi/health` reports it for a
record that never backed off). -/
def healthRecordInv (h : Health) : Prop :=
  h.fail_count = 0 ↔ (h.next_attempt = 0 ∧ h.last_backoff.getD 0 = 0)

/-- The direction of the invariant the code does maintain. -/
def healthRecordInvWeak (h : Health) : Prop :=
  h.fail_count = 0 → h.next_attempt = 0

/-- Counterexample to C3: the initial health record satisfies the
biconditional, but one failing read (`read_compactlogix_tags` except
branch, lines 694-698) increments `fail_count` while leaving
`next_attempt` and `last_backoff` at 0, so `fail_count = 1` with
`next_attempt = 0 ∧ last_backoff = 0` — the biconditional fails. -/
theorem C3_counterexample :
    healthRecordInv initHealth
    ∧ ¬ healthRecordInv (read_plc_tags_health 5 (.failure "read timeout") initHealth) := by
  constructor
  · unfold healthRecordInv initHealth
    simp
  · unfold healthRecordInv read_plc_tags_health initHealth
    simp

/-- C3 (amended): the biconditional `fail_count = 0 ↔ next_attempt = 0 ∧
last_backoff = 0` is not preserved (read failures bump `fail_count`
without engaging backoff, and the success paths zero `fail_count` and
`next_attempt` but leave `last_backoff` stale); what every reconnect tick
and every read success/failure path does preserve is the single direction
`fail_count = 0 → next_attempt = 0`. -/
theorem C3_health_ops_preserve_weak_inv (base maxd now : ℚ)
    (ro : ReconnectOutcome) (rdo : ReadOutcome) (h : Health)
    (hw : healthRecordInvWeak h) :
    healthRecordInvWeak (try_reconnect_helper base maxd now ro h)
    ∧ healthRecordInvWeak (read_plc_tags_health now rdo h) := by
  constructor
  · unfold try_reconnect_helper
    split
    · exact hw
    · cases ro with
      | connected => intro _; rfl
      | openedConnected => intro _; rfl
      | recreatedConnected => intro _; rfl
      | recreatedNotConnected => exact hw
      | recreateFailed msg =>
        unfold healthRecordInvWeak backoffFailure
        intro hfc
        simp at hfc
  · cases rdo with
    | shutdownSkip => exact hw
    | noTags => exact hw
    | notConnected => exact hw
    | success => intro _; rfl
    | failure msg =>
      unfold healthRecordInvWeak read_plc_tags_health
      intro hfc
      simp at hfc

/-- Witness for C3 (amended): the preserved direction at the initial
record, a concrete failing-read outcome and a concrete reconnect tick. -/
theorem C3_health_ops_preserve_weak_inv_witness :
    healthRecordInvWeak (try_reconnect_helper 1 60 7 (.recreateFailed "boom") initHealth)
    ∧ healthRecordInvWeak (read_plc_tags_health 7 (.failure "boom") initHealth) :=
  C3_health_ops_preserve_weak_inv 1 60 7 (.recreateFailed "boom") (.failure "boom")
    initHealth (fun _ => rfl)

/-! ### C8 — the `/api/v1/hmi/health` report -/

/-- Positivity of every recorded `last_backoff` value — the state
invariant that makes the reported backoff positive whenever the reported
fail count is. -/
def healthBackoffPos (h : Health) : Prop :=
  ∀ v, h.last_backoff = some v → 0 < v

/-- C8: the health endpoint reports the stored `last_backoff` when one
was recorded and `compute_backoff_delay(fail_count)` when the key is
unset; every operation keeps recorded backoffs strictly positive (for
positive `RECONNECT_BASE`/`RECONNECT_MAX`, as the defaults 1.0/60.0 are),
so the reported `last_backoff` is strictly positive whenever the
reported `fail_count` is; and `status` is `"ok"` exactly when
`last_plc_update` is nonzero and `age_seconds = now - last` is below 5. -/
theorem C8_hmi_health_report (base maxd now last : ℚ)
    (hb : 0 < base) (hm : 0 < maxd)
    (ro : ReconnectOutcome) (rdo : ReadOutcome) (h : Health) :
    (∀ v, h.last_backoff = some v → (health_snapshot_entry base maxd h).last_backoff = v)
    ∧ (h.last_backoff = Option.none →
        (health_snapshot_entry base maxd h).last_backoff
          = compute_backoff_delay base maxd (h.fail_count : Int))
    ∧ (healthBackoffPos h →
        healthBackoffPos (try_reconnect_helper base maxd now ro h)
        ∧ healthBackoffPos (read_plc_tags_health now rdo h))
    ∧ (healthBackoffPos h → 0 < (health_snapshot_entry base maxd h).fail_count →
        0 < (health_snapshot_entry base maxd h).last_backoff)
    ∧ ((health_status now last = "ok") ↔ (last ≠ 0 ∧ now - last < 5)) := by
  refine ⟨?_, ?_, ?_, ?_, ?_⟩
  · intro v hv
    unfold health_snapshot_entry
    rw [hv]
  · intro hv
    unfold health_snapshot_entry
    rw [hv]
  · intro hpos
    constructor
    · unfold try_reconnect_helper
      split
      · exact hpos
      · cases ro with
        | connected => exact hpos
        | openedConnected => exact hpos
        | recreatedConnected => exact hpos
        | recreatedNotConnected => exact hpos
        | recreateFailed msg =>
          unfold healthBackoffPos backoffFailure
          intro v hv
          simp at hv
          rw [← hv]
          exact compute_backoff_delay_pos base maxd hb hm _ (by omega)
    · cases rdo with
      | shutdownSkip => exact hpos
      | noTags => exact hpos
      | notConnected => exact hpos
      | success => exact hpos
      | failure msg => exact hpos
  · intro hpos hfc
    have hfcp : 0 < h.fail_count := hfc
    rcases hlb : h.last_backoff with _ | v
    · have h2 : (health_snapshot_entry base maxd h).last_backoff
          = compute_backoff_delay base maxd (h.fail_count : Int) := by
        unfold health_snapshot_entry
        rw [hlb]
      rw [h2]
      exact compute_backoff_delay_pos base maxd hb hm _ (by exact_mod_cast hfcp)
    · have h2 : (health_snapshot_entry base maxd h).last_backoff = v := by
        unfold health_snapshot_entry
        rw [hlb]
      rw [h2]
      exact hpos v hlb
  · unfold health_status
    constructor
    · intro hok
      by_contra hc
      rw [if_neg hc] at hok
      exact absurd hok (by decide)
    · intro hc
      rw [if_pos hc]

/-- Witness for C8 at the default `BASE = 1`, `MAX = 60` and a record
that just went through one reconnect failure. -/
theorem C8_hmi_health_report_witness :
    0 < (health_snapshot_entry 1 60 (backoffFailure 1 60 7 "recreate error: boom"
          initHealth)).last_backoff :=
  (C8_hmi_health_report 1 60 7 0 (by norm_num) (by norm_num) .connected .success
    (backoffFailure 1 60 7 "recreate error: boom" initHealth)).2.2.2.1
    (by
      intro v hv
      simp only [backoffFailure, initHealth] at hv
      rw [Option.some.injEq] at hv
      rw [← hv]
      norm_num [compute_backoff_delay, min_def, show Int.toNat 0 = 0 from rfl])
    (Nat.succ_pos 0)

/-! ### C2 — the `get_value` scaling contract -/

/-- C2: for a tag whose data type is not boolean and whose raw stored
value is not a boolean, `get_value` converts the raw value to decimal via
its canonical string form (returning it unchanged when the conversion
fails), computes `scaled = raw * scale_mul + scale_add` in exact decimal
arithmetic, quantizes to `10^(-decimals)` with half-up rounding when
`decimals` is set, and returns that decimal; a missing value entry yields
`None`.  `m`/`a` are the converted `float(scale_mul)`/`float(scale_add)`. -/
theorem C2_get_value_scaling (st : TagStore) (tid : PyVal) (tag : Tag) (rw_ : PyVal)
    (m a : Dec)
    (ht : dictGet st.tags tid = some tag)
    (hdb : dtypeIsBool tag.data_type = false)
    (hm : pyFloat tag.scale_mul = some m)
    (ha : pyFloat tag.scale_add = some a) :
    (dictGet st.values tid = Option.none → st.get_value tid = .none)
    ∧ (dictGet st.values tid = some rw_ → rw_ ≠ .none → rw_.isBool = false →
        ((decOfPy rw_ = Option.none → st.get_value tid = rw_)
        ∧ (∀ d, decOfPy rw_ = some d → tag.decimals = .none →
            ∃ r, st.get_value tid = .dec r ∧ r.toRat = d.toRat * m.toRat + a.toRat)
        ∧ (∀ d n, decOfPy rw_ = some d → pyInt tag.decimals = some n →
            ∃ r, st.get_value tid = .dec r
              ∧ r.toRat = halfUpQ (d.toRat * m.toRat + a.toRat) n))) := by
  constructor
  · intro hv
    simp [TagStore.get_value, hv]
  · intro hv hnn hrb
    have hred : st.get_value tid =
        (if m.toRat = 1 ∧ a.toRat = 0 then
          match decOfPy rw_ with
          | Option.none => rw_
          | some d =>
            if tag.decimals = .none then .dec d
            else
              match pyInt tag.decimals with
              | Option.none => rw_
              | some n => .dec (decQuantize d n)
        else
          match decOfPy rw_ with
          | Option.none => rw_
          | some num =>
            let scaled := decAdd (decMul num m) a
            if tag.decimals = .none then .dec scaled
            else
              match pyInt tag.decimals with
              | Option.none => .dec scaled
              | some n => .dec (decQuantize scaled n)) := by
      simp only [TagStore.get_value, hv, Option.getD_some, if_neg hnn, ht, hrb, hdb,
        Bool.or_self, Bool.false_eq_true, if_false, hm, ha]
    by_cases hsc : m.toRat = 1 ∧ a.toRat = 0
    · rw [if_pos hsc] at hred
      refine ⟨?_, ?_, ?_⟩
      · intro hdp
        simp only [hdp] at hred
        exact hred
      · intro d hdp hdec
        simp only [hdp, hdec, reduceIte] at hred
        exact ⟨d, hred, by rw [hsc.1, hsc.2]; ring⟩
      · intro d n hdp hpi
        have hdec : tag.decimals ≠ .none := by
          intro hq
          rw [hq] at hpi
          exact absurd hpi (by simp [pyInt])
        simp only [hdp, hdec, hpi, reduceIte] at hred
        refine ⟨decQuantize d n, hred, ?_⟩
        rw [decQuantize_toRat, hsc.1, hsc.2]
        ring_nf
    · rw [if_neg hsc] at hred
      refine ⟨?_, ?_, ?_⟩
      · intro hdp
        simp only [hdp] at hred
        exact hred
      · intro d hdp hdec
        simp only [hdp, hdec, reduceIte] at hred
        exact ⟨decAdd (decMul d m) a, hred, by rw [decAdd_toRat, decMul_toRat]⟩
      · intro d n hdp hpi
        have hdec : tag.decimals ≠ .none := by
          intro hq
          rw [hq] at hpi
          exact absurd hpi (by simp [pyInt])
        simp only [hdp, hdec, hpi, reduceIte] at hred
        refine ⟨decQuantize (decAdd (decMul d m) a) n, hred, ?_⟩
        rw [decQuantize_toRat, decAdd_toRat, decMul_toRat]

/-- Witness for C2: a tag scaled by 2.5 with offset 0.25 and 1 decimal
place, applied to the raw integer 3: `3 * 2.5 + 0.25 = 7.75`, quantized
half-up to one decimal place gives `7.8`. -/
theorem C2_get_value_scaling_witness :
    ∃ r, (TagStore.mk
        [(.str "S", { mkTag "S" "Double" with
            scale_mul := .float ⟨25, -1⟩, scale_add := .float ⟨25, -2⟩,
            decimals := .int 1 })]
        [(.str "S", .int 3)]).get_value (.str "S") = .dec r
      ∧ r.toRat = halfUpQ ((Dec.mk 3 0).toRat * (Dec.mk 25 (-1)).toRat
          + (Dec.mk 25 (-2)).toRat) 1 :=
  ((C2_get_value_scaling _ (.str "S")
      ({ mkTag "S" "Double" with
          scale_mul := .float ⟨25, -1⟩, scale_add := .float ⟨25, -2⟩,
          decimals := .int 1 })
      (.int 3) ⟨25, -1⟩ ⟨25, -2⟩ (by decide) (by decide) (by decide) (by decide)).2
    (by decide) (by decide) (by decide)).2.2 ⟨3, 0⟩ 1 (by decide) (by decide)

/-! ### C10 — totality of `get_value` -/

/-- C10: `get_value` never raises — on every store, key, stored raw value
and metadata combination its result is `None` (missing entry), the raw
value itself (a conversion fell back), or a decimal. -/
theorem C10_get_value_total (st : TagStore) (tid : PyVal) :
    st.get_value tid = .none
    ∨ st.get_value tid = st.get_raw_value tid
    ∨ ∃ d, st.get_value tid = .dec d := by
  simp only [TagStore.get_value, TagStore.get_raw_value]
  repeat
    first
    | exact Or.inl rfl
    | exact Or.inr (Or.inl rfl)
    | exact Or.inr (Or.inr ⟨_, rfl⟩)
    | split

/-! ### C6 — default scaling pass-through -/

theorem toRat_ten_neg1 : (Dec.mk 10 (-1)).toRat = 1 := by
  norm_num [Dec.toRat, show ((-(-1 : Int)).toNat) = 1 from rfl]

theorem toRat_zero_neg1 : (Dec.mk 0 (-1)).toRat = 0 := by
  norm_num [Dec.toRat, show ((-(-1 : Int)).toNat) = 1 from rfl]

/-- Evaluation of `get_value` on a one-tag store whose tag carries the
REST defaults (`scale_mul = 1.0`, `scale_add = 0.0`, no `decimals`). -/
theorem get_value_single_default (tid dt : String) (v : PyVal)
    (hdb : dtypeIsBool (.str dt) = false)
    (hnn : v ≠ .none) (hrb : v.isBool = false) :
    (TagStore.mk [(.str tid, mkTag tid dt)] [(.str tid, v)]).get_value (.str tid)
      = (match decOfPy v with | Option.none => v | some d => .dec d) := by
  have ht : dictGet [(PyVal.str tid, mkTag tid dt)] (.str tid) = some (mkTag tid dt) := by
    simp [dictGet]
  have hv : dictGet [(PyVal.str tid, v)] (.str tid) = some v := by
    simp [dictGet]
  have hm : pyFloat (mkTag tid dt).scale_mul = some ⟨10, -1⟩ := rfl
  have ha : pyFloat (mkTag tid dt).scale_add = some ⟨0, -1⟩ := rfl
  have hsc : (Dec.mk 10 (-1)).toRat = 1 ∧ (Dec.mk 0 (-1)).toRat = 0 :=
    ⟨toRat_ten_neg1, toRat_zero_neg1⟩
  have hdtb : dtypeIsBool (mkTag tid dt).data_type = false := hdb
  simp only [TagStore.get_value, hv, Option.getD_some, if_neg hnn, ht, hrb, hdtb,
    Bool.or_self, Bool.false_eq_true, if_false, hm, ha, if_pos hsc,
    show (mkTag tid dt).decimals = PyVal.none from rfl, reduceIte]

/-- Counterexample to C6: under default scaling a numeric-looking string
does not pass through unchanged — `Decimal(str("42"))` succeeds, so
`get_value` returns the decimal 42 instead of the string `"42"`. -/
theorem C6_counterexample :
    (TagStore.mk [(.str "T", mkTag "T" "Double")] [(.str "T", .str "42")]).get_value
        (.str "T") = .dec ⟨42, 0⟩
    ∧ PyVal.dec ⟨42, 0⟩ ≠ PyVal.str "42" := by
  constructor
  · rw [get_value_single_default "T" "Double" (.str "42") (by decide) (by decide) rfl]
    rfl
  · decide

/-- C6 (amended): with `scale_mul == 1.0`, `scale_add == 0.0` and
`decimals == None` on a non-boolean-typed tag, `get_value` returns
booleans unchanged, converts numeric raw values (int, float, Decimal) to
decimal without loss — a `Decimal` raw value comes back bit-for-bit —
and for strings returns the parsed decimal when the string is numeric
(they do not pass through) and the string unchanged only when parsing
fails. -/
theorem C6_get_value_default_scaling (st : TagStore) (tid : PyVal) (tag : Tag) (m a : Dec)
    (ht : dictGet st.tags tid = some tag)
    (hdb : dtypeIsBool tag.data_type = false)
    (hm : pyFloat tag.scale_mul = some m) (hm1 : m.toRat = 1)
    (ha : pyFloat tag.scale_add = some a) (ha0 : a.toRat = 0)
    (hdec : tag.decimals = .none) :
    (∀ b, dictGet st.values tid = some (.bool b) → st.get_value tid = .bool b)
    ∧ (∀ n : Int, dictGet st.values tid = some (.int n) →
        st.get_value tid = .dec ⟨n, 0⟩ ∧ (Dec.mk n 0).toRat = (n : ℚ))
    ∧ (∀ q, dictGet st.values tid = some (.float q) → st.get_value tid = .dec q)
    ∧ (∀ d, dictGet st.values tid = some (.dec d) → st.get_value tid = .dec d)
    ∧ (∀ s, dictGet st.values tid = some (.str s) → decFromStr s = Option.none →
        st.get_value tid = .str s)
    ∧ (∀ s d, dictGet st.values tid = some (.str s) → decFromStr s = some d →
        st.get_value tid = .dec d) := by
  have hcore : ∀ rw_ : PyVal, dictGet st.values tid = some rw_ → rw_ ≠ .none →
      rw_.isBool = false →
      st.get_value tid = (match decOfPy rw_ with
        | Option.none => rw_
        | some d => .dec d) := by
    intro rw_ hv hnn hrb
    have hsc : m.toRat = 1 ∧ a.toRat = 0 := ⟨hm1, ha0⟩
    simp only [TagStore.get_value, hv, Option.getD_some, if_neg hnn, ht, hrb, hdb,
      Bool.or_self, Bool.false_eq_true, if_false, hm, ha, if_pos hsc, hdec, reduceIte]
  refine ⟨?_, ?_, ?_, ?_, ?_, ?_⟩
  · intro b hv
    simp only [TagStore.get_value, hv, Option.getD_some, ht]
    rfl
  · intro n hv
    refine ⟨(hcore (.int n) hv (by simp) rfl).trans rfl, ?_⟩
    unfold Dec.toRat
    norm_num
  · intro q hv
    exact (hcore (.float q) hv (by simp) rfl).trans rfl
  · intro d hv
    exact (hcore (.dec d) hv (by simp) rfl).trans rfl
  · intro s hv hs
    exact (hcore (.str s) hv (by simp) rfl).trans (by simp only [decOfPy, hs])
  · intro s d hv hs
    exact (hcore (.str s) hv (by simp) rfl).trans (by simp only [decOfPy, hs])

/-- Witness for C6 at a concrete store holding a `Decimal` raw value with
trailing zeros: it is returned unchanged. -/
theorem C6_get_value_default_scaling_witness :
    (TagStore.mk [(.str "T", mkTag "T" "Double")] [(.str "T", .dec ⟨250, -2⟩)]).get_value
        (.str "T") = .dec ⟨250, -2⟩ :=
  (C6_get_value_default_scaling _ (.str "T") (mkTag "T" "Double") ⟨10, -1⟩ ⟨0, -1⟩
      (by decide) (by decide) (by decide) toRat_ten_neg1 (by decide) toRat_zero_neg1
      (by decide)).2.2.2.1 ⟨250, -2⟩ (by decide)

/-! ### C7 — Decimal-preserving serialization of `GET /tags/{id}` -/

/-- C7: a tag whose stored raw value is `Decimal("1.2300")` under default
scaling serializes its `value` field as the JSON string `"1.2300"`
(trailing zeros preserved); and `_json_response` maps any other decimal
to a JSON integer when integral and a JSON number otherwise. -/
theorem C7_get_tag_decimal_serialization (st : TagStore) (k : PyVal) (tag : Tag) (m a : Dec)
    (ht : dictGet st.tags k = some tag)
    (hid : tag.tag_id = k)
    (hv : dictGet st.values k = some (.dec ⟨12300, -4⟩))
    (hm : pyFloat tag.scale_mul = some m) (hm1 : m.toRat = 1)
    (ha : pyFloat tag.scale_add = some a) (ha0 : a.toRat = 0)
    (hdec : tag.decimals = .none) :
    api_get_tag_value st k = (200, .jstr "1.2300")
    ∧ (∀ d : Dec, jsonOfPy (.dec d)
        = if d.toRat.den = 1 then .jint d.toRat.num else .jnum d.toRat) := by
  have hval : st.get_value k = .dec ⟨12300, -4⟩ := by
    by_cases hb : dtypeIsBool tag.data_type = true
    · simp only [TagStore.get_value, hv, Option.getD_some, ht, hb]
      rfl
    · have hb2 : dtypeIsBool tag.data_type = false := by
        revert hb
        cases dtypeIsBool tag.data_type <;> simp
      have hsc : m.toRat = 1 ∧ a.toRat = 0 := ⟨hm1, ha0⟩
      simp only [TagStore.get_value, hv, Option.getD_some, ht, hb2, hm, ha,
        if_pos hsc, hdec, reduceIte]
      rfl
  constructor
  · simp only [api_get_tag_value, ht]
    rw [hid]
    have hraw : st.get_raw_value k = .dec ⟨12300, -4⟩ := by
      unfold TagStore.get_raw_value
      rw [hv]
      rfl
    rw [hraw, hval]
    rfl
  · intro d
    rfl

/-- Witness for C7 at a concrete one-tag store. -/
theorem C7_get_tag_decimal_serialization_witness :
    api_get_tag_value
        (TagStore.mk [(.str "t1", mkTag "t1" "Double")] [(.str "t1", .dec ⟨12300, -4⟩)])
        (.str "t1")
      = (200, .jstr "1.2300") :=
  (C7_get_tag_decimal_serialization _ (.str "t1") (mkTag "t1" "Double") ⟨10, -1⟩ ⟨0, -1⟩
      (by decide) (by decide) (by decide) (by decide) toRat_ten_neg1 (by decide)
      toRat_zero_neg1 (by decide)).1

/-! ### C4 — payload validation on POST and import -/

/-- A value that is a non-empty Python string. -/
def isNonEmptyStrVal (v : PyVal) : Prop := ∃ s, v = .str s ∧ s ≠ ""

/-- A payload carrying no fields at all (`{}`). -/
def emptyPayload : TagPayload :=
  ⟨Option.none, Option.none, Option.none, Option.none, Option.none, Option.none,
   Option.none, Option.none, Option.none, Option.none, Option.none, Option.none,
   Option.none, Option.none⟩

/-- Counterexample to C4: POST `/api/v1/tags` with the empty payload
(no `tag_id`, no `name`) does not return 400 — the handler never
validates, so it returns 201 with `created = [None]` and stores a tag
under the key `None`. -/
theorem C4_counterexample :
    (api_add_tag TagStore.empty [emptyPayload]).status = 201
    ∧ (api_add_tag TagStore.empty [emptyPayload]).ids = [.none]
    ∧ dictGet (api_add_tag TagStore.empty [emptyPayload]).store.tags .none ≠ Option.none := by
  refine ⟨by decide, by decide, by decide⟩

/-- The id-part of `_validate_tag_payload` rejects a payload in which
neither `tag_id` nor `name` is a non-empty string. -/
theorem validate_tag_payload_false (t : TagPayload)
    (h1 : ¬ isNonEmptyStrVal (getField t.tag_id))
    (h2 : ¬ isNonEmptyStrVal (getField t.name)) :
    validate_tag_payload t = false := by
  unfold validate_tag_payload
  by_cases hta : pyTruthy (getField t.tag_id) = true
  · have hor : pyOr (getField t.tag_id) (getField t.name) = getField t.tag_id := by
      unfold pyOr
      rw [if_pos hta]
    rw [hor]
    rcases hA : getField t.tag_id with _ | b | n | q | d | s
    · rw [hA] at hta
      exact absurd hta (by decide)
    · simp
    · simp
    · simp
    · simp
    · exfalso
      apply h1
      rw [hA] at hta
      exact ⟨s, hA, by simpa [pyTruthy] using hta⟩
  · have hor : pyOr (getField t.tag_id) (getField t.name) = getField t.name := by
      unfold pyOr
      rw [if_neg hta]
    rw [hor]
    by_cases htb : pyTruthy (getField t.name) = true
    · rcases hB : getField t.name with _ | b | n | q | d | s
      · rw [hB] at htb
        exact absurd htb (by decide)
      · simp
      · simp
      · simp
      · simp
      · exfalso
        apply h2
        rw [hB] at htb
        exact ⟨s, hB, by simpa [pyTruthy] using htb⟩
    · have hfb : pyTruthy (getField t.name) = false := by
        revert htb
        cases pyTruthy (getField t.name) <;> simp
      simp [hfb]

/-- C4 (amended): for a payload in which neither `tag_id` nor `name` is a
non-empty string, PUT `/api/v1/tags/import` does return 400 with an
error body and, when `replace_all` is false, leaves the Tag Store
unchanged — but with `replace_all=true` the store has already been
cleared before validation runs; and POST `/api/v1/tags` performs no such
validation at all: whenever the rest of the payload builds, it returns
201, lists the (falsy or non-string) id in `created`, and mutates the
store. -/
theorem C4_rest_validation (st : TagStore) (t : TagPayload) (rest : List TagPayload)
    (h1 : ¬ isNonEmptyStrVal (getField t.tag_id))
    (h2 : ¬ isNonEmptyStrVal (getField t.name)) :
    api_import_tags false (some (t :: rest)) st = ⟨400, [], st⟩
    ∧ api_import_tags true (some (t :: rest)) st = ⟨400, [], st.clear_tags⟩
    ∧ (∀ tag, buildTag t = some tag →
        ¬ isNonEmptyStrVal tag.tag_id
        ∧ ((st.add_tag tag (getField t.initial_value)).2 = true →
            api_add_tag st [t]
              = ⟨201, [tag.tag_id], (st.add_tag tag (getField t.initial_value)).1⟩)) := by
  have hval := validate_tag_payload_false t h1 h2
  have hloop : ∀ s0 : TagStore, api_import_tags_loop s0 (t :: rest) [] = ⟨400, [], s0⟩ := by
    intro s0
    unfold api_import_tags_loop
    rw [hval, if_neg (show ¬ (false = true) by decide)]
  refine ⟨?_, ?_, ?_⟩
  · unfold api_import_tags
    exact hloop st
  · unfold api_import_tags
    exact hloop st.clear_tags
  · intro tag hbuild
    have hid : tag.tag_id = pyOr (getField t.tag_id) (getField t.name) := by
      rcases hsm : pyFloat (getFieldD t.scale_mul (.float ⟨10, -1⟩)) with _ | sm
      · unfold buildTag at hbuild
        rw [hsm] at hbuild
        exact absurd hbuild (by simp)
      · rcases hsa : pyFloat (getFieldD t.scale_add (.float ⟨0, -1⟩)) with _ | sa
        · unfold buildTag at hbuild
          rw [hsm, hsa] at hbuild
          exact absurd hbuild (by simp)
        · unfold buildTag at hbuild
          rw [hsm, hsa] at hbuild
          simp only [Option.some.injEq] at hbuild
          rw [← hbuild]
    constructor
    · rw [hid]
      unfold pyOr
      split
      · exact h1
      · exact h2
    · intro hadd
      rcases hE : st.add_tag tag (getField t.initial_value) with ⟨st2, b⟩
      rw [hE] at hadd
      have hb : b = true := hadd
      subst hb
      simp only [api_add_tag, api_add_tag_loop, hbuild, hE, List.reverse_cons,
        List.reverse_nil, List.nil_append]

/-- Witness for C4 (amended) at the empty payload and the empty store. -/
theorem C4_rest_validation_witness :
    api_import_tags false (some [emptyPayload]) TagStore.empty
      = ⟨400, [], TagStore.empty⟩ :=
  (C4_rest_validation TagStore.empty emptyPayload []
    (fun ⟨_, hq, _⟩ => PyVal.noConfusion hq)
    (fun ⟨_, hq, _⟩ => PyVal.noConfusion hq)).1

/-! ### C9 — re-adding an existing tag_id -/

/-- C9: a POST carrying a `tag_id` already present in the store does not
fail or report a conflict — it returns 201 with the id in `created`,
silently replaces the stored metadata with the newly built tag, and
(when no `initial_value` is supplied) overwrites the stored value with
the type-based default. -/
theorem C9_post_existing_tag_id (st : TagStore) (t : TagPayload) (tag told : Tag)
    (s : String)
    (hbuild : buildTag t = some tag)
    (hinit : getField t.initial_value = .none)
    (hexist : dictGet st.tags tag.tag_id = some told)
    (hdt : tag.data_type = .str s) :
    api_add_tag st [t]
      = ⟨201, [tag.tag_id],
          { tags := dictSet st.tags tag.tag_id tag,
            values := dictSet st.values tag.tag_id (defaultForDt (strLower s)) }⟩
    ∧ dictGet (dictSet st.tags tag.tag_id tag) tag.tag_id = some tag
    ∧ dictGet (dictSet st.values tag.tag_id (defaultForDt (strLower s))) tag.tag_id
        = some (defaultForDt (strLower s)) := by
  have hadd : st.add_tag tag (getField t.initial_value)
      = ({ tags := dictSet st.tags tag.tag_id tag,
           values := dictSet st.values tag.tag_id (defaultForDt (strLower s)) }, true) := by
    rw [hinit]
    unfold TagStore.add_tag
    rw [if_neg (by simp), hdt, dtLowerOrEmpty_str]
  refine ⟨?_, dictGet_dictSet_self _ _ _, dictGet_dictSet_self _ _ _⟩
  simp only [api_add_tag, api_add_tag_loop, hbuild, hadd, List.reverse_cons,
    List.reverse_nil, List.nil_append]

/-- Witness for C9: re-POSTing id `T` over a store that already holds a
tag `T` replaces it and resets the value to the `Boolean` default. -/
theorem C9_post_existing_tag_id_witness :
    api_add_tag
        (TagStore.mk [(.str "T", mkTag "T" "Double")] [(.str "T", .int 7)])
        [{ emptyPayload with
            tag_id := some (.str "T"), data_type := some (.str "Boolean") }]
      = ⟨201, [.str "T"],
          { tags := dictSet [(.str "T", mkTag "T" "Double")] (.str "T")
              (mkTag "T" "Boolean"),
            values := dictSet [(.str "T", .int 7)] (.str "T")
              (defaultForDt (strLower "Boolean")) }⟩ :=
  (C9_post_existing_tag_id
      (TagStore.mk [(.str "T", mkTag "T" "Double")] [(.str "T", .int 7)])
      { emptyPayload with
          tag_id := some (.str "T"), data_type := some (.str "Boolean") }
      (mkTag "T" "Boolean") (mkTag "T" "Double") "Boolean"
      (by decide) (by decide) (by decide) (by decide)).1
